import Mathlib

/-!
Shallow embedding of the sampling, change-detection, timeline and
timing-reconstruction core of src/src/main.rs (v6prac).

Modelling conventions:
Instants are nanoseconds since some epoch, as Nat; u128 quantities are Nat,
with an explicit checked multiplication where the source uses
checked_mul followed by unwrap (the unwrap panic is modelled as none);
the f64 computations of the source (the fps rounding and the division by
the frame duration) are modelled as exact rationals; the presentation-only
data on a tracked channel (its glyph and rotation) is dropped, a channel is
its key id as a Nat.  The window, canvas, surface and device handles held in
GlobalState are external collaborators and are not part of the state; the
request_redraw call in poll is modelled as the Bool component of its result.
-/

/-- MAX_QUEUE_SIZE (source line 62): how many past polls to keep. -/
def MAX_QUEUE_SIZE : Nat := 20

/-- NANOS_PER_FRAME (source line 64): one game frame in nanoseconds. -/
def NANOS_PER_FRAME : Nat := 34000000

/-- MAX_POLLS_PER_FRAME (source line 67): polls allowed per game frame. -/
def MAX_POLLS_PER_FRAME : Nat := 20

/-- One more than the largest u128 value. -/
def U128_MOD : Nat := 2 ^ 128

/-- The u128 MAX sentinel the source stores in dt fields not yet measured. -/
def U128_MAX : Nat := 2 ^ 128 - 1

/-- RecordedPoll (source lines 98 to 103): a retained sample (an Edge). -/
structure RecordedPoll where
  timestamp : Nat
  keys : List Bool
  dt_before : Nat
  dt_after : Nat
deriving DecidableEq

/-- The core fields of GlobalState (source lines 69 to 86); actions keeps only
each tracked channel's key id; last_fps is exact instead of f64; the queue is
a list with its front (the newest edge) at the head. -/
structure GlobalState where
  actions : List Nat
  limit_fps : Bool
  last_fps : ℚ
  last_dt : Nat
  last_poll_attempt : Nat
  attempts_since_last_poll : Nat
  poll_queue : List RecordedPoll
deriving DecidableEq

/-- Round to nearest with ties away from zero, the semantics of f64 round,
over exact rationals. -/
def round_half_away (q : ℚ) : ℚ :=
  if 0 ≤ q then (⌊q + 1 / 2⌋ : ℤ) else (⌈q - 1 / 2⌉ : ℤ)

/-- get_pressed_keys (source lines 214 to 234): build the boolean vector by
membership of each tracked key id in the polled active set; both dt fields
start at the u128 MAX sentinel. -/
def get_pressed_keys (actions : List Nat) (now : Nat) (pressed : List Nat) : RecordedPoll :=
  { timestamp := now
    keys := actions.map (fun a => pressed.contains a)
    dt_before := U128_MAX
    dt_after := U128_MAX }

/-- inputs_changed (source lines 236 to 238): element-wise vector inequality. -/
def inputs_changed (this_poll last_poll : RecordedPoll) : Bool :=
  decide (this_poll.keys ≠ last_poll.keys)

/-- The eviction step of record_poll (source lines 202 to 204): drop the tail
edge when the queue is at capacity. -/
def evict_if_full (q : List RecordedPoll) : List RecordedPoll :=
  if MAX_QUEUE_SIZE ≤ q.length then q.dropLast else q

/-- The back-fill step of record_poll (source lines 207 to 209): set dt_after
of the current front edge, if any. -/
def backfill (d : Nat) : List RecordedPoll → List RecordedPoll
  | [] => []
  | prev_poll :: rest => { prev_poll with dt_after := d } :: rest

/-- record_poll (source lines 193 to 212): recompute last_fps, reset the
attempt counter, evict at capacity, stamp dt_before on the new edge, back-fill
dt_after on the previous front edge, push the new edge to the front. -/
def record_poll (now : Nat) (poll0 : RecordedPoll) (s : GlobalState) : GlobalState :=
  let fps : ℚ :=
    match s.poll_queue.head? with
    | some last_poll =>
        round_half_away ((s.attempts_since_last_poll : ℚ) /
          (((now - last_poll.timestamp : Nat) : ℚ) / 1000000000))
    | none => 0
  { s with
    last_fps := fps
    attempts_since_last_poll := 0
    poll_queue :=
      { poll0 with dt_before := s.last_dt } :: backfill s.last_dt (evict_if_full s.poll_queue) }

/-- poll (source lines 181 to 191), with the sample already built: retain it if
it is the first one or the pressed keys changed.  The Bool is whether a redraw
was requested, i.e. whether the sample was retained as a new edge. -/
def poll (now : Nat) (sample : RecordedPoll) (s : GlobalState) : GlobalState × Bool :=
  match s.poll_queue.head? with
  | none => (record_poll now sample s, true)
  | some last_poll =>
      if inputs_changed sample last_poll then (record_poll now sample s, true)
      else (s, false)

/-- The rate gate of maybe_poll (source lines 165 to 169), with the
multiplication taken over Nat (no overflow); see maybe_poll_checked for the
u128 checked multiplication. -/
def enough_time_passed (s : GlobalState) (now : Nat) : Bool :=
  if s.limit_fps then
    decide (NANOS_PER_FRAME ≤ (now - s.last_poll_attempt) * MAX_POLLS_PER_FRAME)
  else true

/-- The body of maybe_poll once the gate is open (source lines 171 to 178):
count the attempt, record the raw interval, build and process the sample,
update last_poll_attempt. -/
def poll_body (now : Nat) (pressed : List Nat) (s : GlobalState) : GlobalState :=
  let s1 := { s with
    attempts_since_last_poll := s.attempts_since_last_poll + 1
    last_dt := now - s.last_poll_attempt }
  let s2 := (poll now (get_pressed_keys s1.actions now pressed) s1).1
  { s2 with last_poll_attempt := now }

/-- maybe_poll (source lines 160 to 179) over Nat arithmetic. -/
def maybe_poll (now : Nat) (pressed : List Nat) (s : GlobalState) : GlobalState :=
  if enough_time_passed s now then poll_body now pressed s else s

/-- u128 checked_mul: none on overflow past the u128 range. -/
def checked_mul (a b : Nat) : Option Nat :=
  if a * b < U128_MOD then some (a * b) else none

/-- maybe_poll with the checked_mul and unwrap of source line 166 modelled
explicitly: none is the unwrap panic on u128 overflow. -/
def maybe_poll_checked (now : Nat) (pressed : List Nat) (s : GlobalState) :
    Option GlobalState :=
  let gate : Option Bool :=
    if s.limit_fps then
      (checked_mul (now - s.last_poll_attempt) MAX_POLLS_PER_FRAME).map
        (fun p => decide (NANOS_PER_FRAME ≤ p))
    else some true
  gate.map (fun g => if g then poll_body now pressed s else s)

/-- The core fields of the state built in init_and_run (source lines 117 to
134); startup_now is the Instant sampled at construction. -/
def init_state (actions : List Nat) (startup_now : Nat) : GlobalState :=
  { actions := actions
    limit_fps := false
    last_fps := 0
    last_dt := 0
    last_poll_attempt := startup_now
    attempts_since_last_poll := 0
    poll_queue := [] }

/-- One run of the event loop's sampling path (source lines 136 to 158): each
tick is the Instant at which MainEventsCleared fires together with the key set
the device reports at that moment. -/
def run : GlobalState → List (Nat × List Nat) → GlobalState
  | s, [] => s
  | s, (now, pressed) :: rest => run (maybe_poll now pressed s) rest

/-- The timing reconstruction for one adjacent pair of edges in
draw_past_inputs (source lines 363 to 373); next_poll is the newer edge, p the
older one.  Returns the pair of frames_held and the uncertainty, as exact
rationals in place of f64. -/
def reconstruct (next_poll p : RecordedPoll) : ℚ × ℚ :=
  let dt := next_poll.timestamp - p.timestamp
  let min_nanos_held := dt - p.dt_after
  let epsilon_nanos := (p.dt_after + p.dt_before) / 2
  (((min_nanos_held + epsilon_nanos : Nat) : ℚ) / (NANOS_PER_FRAME : ℚ),
    ((epsilon_nanos : Nat) : ℚ) / (NANOS_PER_FRAME : ℚ))

/-- Shared-boundary relation between a newer edge b and the next older edge a
in the timeline: a's back-filled trailing uncertainty equals b's leading one. -/
def shared_boundary (b a : RecordedPoll) : Prop :=
  a.dt_after = b.dt_before

/-- Relation between a newer edge b and the next older edge a under which the
subtraction computing min_nanos_held in the reconstructor cannot underflow. -/
def gap_bound (b a : RecordedPoll) : Prop :=
  a.timestamp ≤ b.timestamp ∧ a.dt_after ≤ b.timestamp - a.timestamp

/-- Count of consecutive pairs of sample vectors that differ. -/
def diffCount : List (List Bool) → Nat
  | a :: b :: rest => (if a = b then 0 else 1) + diffCount (b :: rest)
  | _ => 0

/-- Process a sequence of already-built samples through poll (one gate-open
tick each), counting how many are retained as edges. -/
def pollRun : GlobalState → List (Nat × RecordedPoll) → GlobalState × Nat
  | s, [] => (s, 0)
  | s, (now, sample) :: rest =>
      let p := poll now sample s
      let r := pollRun p.1 rest
      (r.1, (if p.2 then 1 else 0) + r.2)

/-- Concrete edge used by witnesses: the older edge of a pair. -/
def poll_a : RecordedPoll :=
  { timestamp := 10000000, keys := [true], dt_before := 10000000, dt_after := 20000000 }

/-- Concrete edge used by witnesses: a newer neighbour of poll_a. -/
def poll_b : RecordedPoll :=
  { timestamp := 60000000, keys := [false], dt_before := 20000000, dt_after := U128_MAX }

/-- Concrete edge used by witnesses: an even newer edge. -/
def poll_c : RecordedPoll :=
  { timestamp := 90000000, keys := [true], dt_before := 5000000, dt_after := U128_MAX }

/-- Concrete state used by gate witnesses: a fresh state with the rate limit
switched on. -/
def s_gate : GlobalState := { init_state [] 0 with limit_fps := true }

/-- Concrete state used by witnesses: a timeline holding the single edge
poll_b, with a few attempts counted and a measured interval. -/
def s_one : GlobalState :=
  { init_state [] 0 with
    poll_queue := [poll_b]
    last_dt := 7
    attempts_since_last_poll := 5 }

/-- C3: for two adjacent edges, the reconstructor computes
raw_dt = next_poll.timestamp - poll.timestamp,
min_nanos_held = raw_dt - poll.dt_after,
epsilon = (poll.dt_after + poll.dt_before) / 2 (integer division), and reports
held_frames_estimate = (min_nanos_held + epsilon) / NANOS_PER_FRAME together
with uncertainty epsilon / NANOS_PER_FRAME; under the no-underflow conditions
the Nat subtractions agree with the exact integer formulas. -/
theorem C3_reconstruction (np p : RecordedPoll)
    (hts : p.timestamp ≤ np.timestamp)
    (hdt : p.dt_after ≤ np.timestamp - p.timestamp) :
    reconstruct np p =
      ((((np.timestamp : ℤ) - (p.timestamp : ℤ) - (p.dt_after : ℤ) +
          (((p.dt_after + p.dt_before) / 2 : Nat) : ℤ) : ℤ) : ℚ) / (NANOS_PER_FRAME : ℚ),
        ((((p.dt_after + p.dt_before) / 2 : Nat) : ℤ) : ℚ) / (NANOS_PER_FRAME : ℚ)) := by
  have hnum :
      ((np.timestamp - p.timestamp - p.dt_after + (p.dt_after + p.dt_before) / 2 : Nat) : ℤ)
        = (np.timestamp : ℤ) - (p.timestamp : ℤ) - (p.dt_after : ℤ) +
            (((p.dt_after + p.dt_before) / 2 : Nat) : ℤ) := by
    omega
  simp only [reconstruct, Prod.mk.injEq]
  constructor
  · congr 1
    rw [← hnum, Int.cast_natCast]
  · rw [Int.cast_natCast]

/-- Witness for C3 at the concrete pair poll_b (newer), poll_a (older). -/
theorem C3_reconstruction_witness :
    poll_a.timestamp ≤ poll_b.timestamp ∧
    poll_a.dt_after ≤ poll_b.timestamp - poll_a.timestamp ∧
    reconstruct poll_b poll_a =
      ((((poll_b.timestamp : ℤ) - (poll_a.timestamp : ℤ) - (poll_a.dt_after : ℤ) +
          (((poll_a.dt_after + poll_a.dt_before) / 2 : Nat) : ℤ) : ℤ) : ℚ) /
            (NANOS_PER_FRAME : ℚ),
        ((((poll_a.dt_after + poll_a.dt_before) / 2 : Nat) : ℤ) : ℚ) / (NANOS_PER_FRAME : ℚ)) :=
  ⟨by decide, by decide, C3_reconstruction poll_b poll_a (by decide) (by decide)⟩

/-- C8: for fixed dt_before and dt_after on the older edge, the held-frames
estimate computed by the reconstructor is strictly increasing in the raw
timestamp gap, for gaps at least dt_after. -/
theorem C8_monotone (p n1 n2 : RecordedPoll)
    (h1 : p.timestamp ≤ n1.timestamp)
    (h2 : p.dt_after ≤ n1.timestamp - p.timestamp)
    (hlt : n1.timestamp < n2.timestamp) :
    (reconstruct n1 p).1 < (reconstruct n2 p).1 := by
  simp only [reconstruct]
  rw [div_lt_div_iff_of_pos_right (by norm_num [NANOS_PER_FRAME])]
  have : n1.timestamp - p.timestamp - p.dt_after + (p.dt_after + p.dt_before) / 2
      < n2.timestamp - p.timestamp - p.dt_after + (p.dt_after + p.dt_before) / 2 := by
    omega
  exact_mod_cast this

/-- Witness for C8 at the concrete triple poll_a, poll_b, poll_c. -/
theorem C8_monotone_witness :
    poll_a.timestamp ≤ poll_b.timestamp ∧
    poll_a.dt_after ≤ poll_b.timestamp - poll_a.timestamp ∧
    poll_b.timestamp < poll_c.timestamp ∧
    (reconstruct poll_b poll_a).1 < (reconstruct poll_c poll_a).1 :=
  ⟨by decide, by decide, by decide,
    C8_monotone poll_a poll_b poll_c (by decide) (by decide) (by decide)⟩

/-- Concrete timeline at capacity used by the capacity witness: twenty edges
with strictly decreasing timestamps, newest first. -/
def fullQueue : List RecordedPoll :=
  [{ timestamp := 200, keys := [], dt_before := 3, dt_after := 5 },
   { timestamp := 190, keys := [], dt_before := 3, dt_after := 5 },
   { timestamp := 180, keys := [], dt_before := 3, dt_after := 5 },
   { timestamp := 170, keys := [], dt_before := 3, dt_after := 5 },
   { timestamp := 160, keys := [], dt_before := 3, dt_after := 5 },
   { timestamp := 150, keys := [], dt_before := 3, dt_after := 5 },
   { timestamp := 140, keys := [], dt_before := 3, dt_after := 5 },
   { timestamp := 130, keys := [], dt_before := 3, dt_after := 5 },
   { timestamp := 120, keys := [], dt_before := 3, dt_after := 5 },
   { timestamp := 110, keys := [], dt_before := 3, dt_after := 5 },
   { timestamp := 100, keys := [], dt_before := 3, dt_after := 5 },
   { timestamp := 90, keys := [], dt_before := 3, dt_after := 5 },
   { timestamp := 80, keys := [], dt_before := 3, dt_after := 5 },
   { timestamp := 70, keys := [], dt_before := 3, dt_after := 5 },
   { timestamp := 60, keys := [], dt_before := 3, dt_after := 5 },
   { timestamp := 50, keys := [], dt_before := 3, dt_after := 5 },
   { timestamp := 40, keys := [], dt_before := 3, dt_after := 5 },
   { timestamp := 30, keys := [], dt_before := 3, dt_after := 5 },
   { timestamp := 20, keys := [], dt_before := 3, dt_after := 5 },
   { timestamp := 10, keys := [], dt_before := 3, dt_after := 5 }]

/-- Concrete state whose timeline is at capacity, for the capacity witness. -/
def s_full : GlobalState := { init_state [] 0 with poll_queue := fullQueue, last_dt := 4 }

theorem record_poll_limit (now : Nat) (p : RecordedPoll) (s : GlobalState) :
    (record_poll now p s).limit_fps = s.limit_fps := rfl

theorem poll_fst_limit (now : Nat) (sample : RecordedPoll) (s : GlobalState) :
    ((poll now sample s).1).limit_fps = s.limit_fps := by
  rcases hq : s.poll_queue.head? with _ | e
  · simp [poll, hq, record_poll]
  · by_cases h : inputs_changed sample e
    · simp [poll, hq, h, record_poll]
    · simp [poll, hq, h]

theorem maybe_poll_limit (now : Nat) (pressed : List Nat) (s : GlobalState) :
    (maybe_poll now pressed s).limit_fps = s.limit_fps := by
  unfold maybe_poll
  by_cases hg : enough_time_passed s now
  · simp [hg, poll_body, poll_fst_limit]
  · simp [hg]

theorem run_limit : ∀ (ticks : List (Nat × List Nat)) (s : GlobalState),
    (run s ticks).limit_fps = s.limit_fps
  | [], _ => rfl
  | (now, pressed) :: rest, s => by
      show (run (maybe_poll now pressed s) rest).limit_fps = s.limit_fps
      rw [run_limit rest, maybe_poll_limit]

/-- C6: with the rate limit on, the gate is open exactly when the elapsed
interval times MAX_POLLS_PER_FRAME reaches NANOS_PER_FRAME (integer
cross-multiplication); an open gate runs the poll body, a closed gate leaves
the whole state unchanged; with the limit off the gate is always open; and
absent u128 overflow the checked variant agrees and never panics. -/
theorem C6_rate_gate (now : Nat) (pressed : List Nat) (s : GlobalState) :
    (s.limit_fps = true →
      (enough_time_passed s now = true ↔
        NANOS_PER_FRAME ≤ (now - s.last_poll_attempt) * MAX_POLLS_PER_FRAME)) ∧
    (enough_time_passed s now = true → maybe_poll now pressed s = poll_body now pressed s) ∧
    (enough_time_passed s now = false → maybe_poll now pressed s = s) ∧
    (s.limit_fps = false → enough_time_passed s now = true) ∧
    ((now - s.last_poll_attempt) * MAX_POLLS_PER_FRAME < U128_MOD →
      maybe_poll_checked now pressed s = some (maybe_poll now pressed s)) := by
  refine ⟨?_, ?_, ?_, ?_, ?_⟩
  · intro hl
    simp [enough_time_passed, hl]
  · intro hg
    simp [maybe_poll, hg]
  · intro hg
    simp [maybe_poll, hg]
  · intro hl
    simp [enough_time_passed, hl]
  · intro hov
    cases hl : s.limit_fps
    · simp [maybe_poll_checked, maybe_poll, enough_time_passed, hl]
    · have hc : checked_mul (now - s.last_poll_attempt) MAX_POLLS_PER_FRAME =
          some ((now - s.last_poll_attempt) * MAX_POLLS_PER_FRAME) := by
        unfold checked_mul
        rw [if_pos hov]
      simp [maybe_poll_checked, maybe_poll, enough_time_passed, hl, hc]

/-- Witness for C6 at a concrete limited-mode state and tick. -/
theorem C6_rate_gate_witness :
    s_gate.limit_fps = true ∧
    (40000000 - s_gate.last_poll_attempt) * MAX_POLLS_PER_FRAME < U128_MOD ∧
    enough_time_passed s_gate 40000000 = true ∧
    maybe_poll_checked 40000000 [] s_gate = some (maybe_poll 40000000 [] s_gate) :=
  ⟨rfl, by decide,
    ((C6_rate_gate 40000000 [] s_gate).1 rfl).mpr (by decide),
    (C6_rate_gate 40000000 [] s_gate).2.2.2.2 (by decide)⟩

/-- C7 (amended): an unsigned overflow of the rate-gate multiplication is a
loud failure (checked_mul and unwrap, a panic) at the tick at which it occurs,
during the run, rather than a silent wrap; the construction in init_and_run
performs no startup-time validation of the gate arithmetic. -/
theorem C7_overflow_panics (now : Nat) (pressed : List Nat) (s : GlobalState)
    (hl : s.limit_fps = true)
    (hov : U128_MOD ≤ (now - s.last_poll_attempt) * MAX_POLLS_PER_FRAME) :
    maybe_poll_checked now pressed s = none := by
  have hc : checked_mul (now - s.last_poll_attempt) MAX_POLLS_PER_FRAME = none := by
    unfold checked_mul
    rw [if_neg (Nat.not_lt.mpr hov)]
  simp [maybe_poll_checked, hl, hc]

/-- Witness for C7's amended theorem at a concrete overflowing tick. -/
theorem C7_overflow_panics_witness :
    s_gate.limit_fps = true ∧
    U128_MOD ≤ (U128_MOD - s_gate.last_poll_attempt) * MAX_POLLS_PER_FRAME ∧
    maybe_poll_checked U128_MOD [] s_gate = none :=
  ⟨rfl, by decide, C7_overflow_panics U128_MOD [] s_gate rfl (by decide)⟩

/-- C7 counterexample to the claim as stated: the rate-gate overflow is not
intercepted before the run; a tick whose elapsed interval overflows the u128
multiplication fails at that very tick (the modelled unwrap panic), i.e. the
failure happens mid-run at sampling time, not at startup-validation time. -/
theorem C7_counterexample :
    maybe_poll_checked U128_MOD [] s_gate = none := by
  have hc : checked_mul U128_MOD MAX_POLLS_PER_FRAME = none := by
    unfold checked_mul
    rw [if_neg]
    decide
  simp [maybe_poll_checked, s_gate, init_state, hc]

/-- C10: limit_fps is false at construction and no operation ever sets it, so
in every reachable state the rate gate is open on every tick and the
overflow-checked multiplication of the limited branch is never executed: the
checked variant never panics on a reachable state. -/
theorem C10_gate_always_open (actions : List Nat) (t0 : Nat)
    (ticks : List (Nat × List Nat)) (now : Nat) (pressed : List Nat) :
    (run (init_state actions t0) ticks).limit_fps = false ∧
    enough_time_passed (run (init_state actions t0) ticks) now = true ∧
    maybe_poll_checked now pressed (run (init_state actions t0) ticks) =
      some (maybe_poll now pressed (run (init_state actions t0) ticks)) := by
  have hl : (run (init_state actions t0) ticks).limit_fps = false := by
    rw [run_limit]
    rfl
  refine ⟨hl, ?_, ?_⟩
  · simp [enough_time_passed, hl]
  · simp [maybe_poll_checked, maybe_poll, enough_time_passed, hl]

theorem record_poll_head (now : Nat) (p : RecordedPoll) (s : GlobalState) :
    (record_poll now p s).poll_queue.head? = some { p with dt_before := s.last_dt } := rfl

theorem pollRun_count :
    ∀ (l : List (Nat × RecordedPoll)) (s : GlobalState) (e : RecordedPoll),
      s.poll_queue.head? = some e →
      (pollRun s l).2 = diffCount (e.keys :: l.map (fun t => t.2.keys))
  | [], s, e, _ => by simp [pollRun, diffCount]
  | (now, sample) :: rest, s, e, he => by
      by_cases hk : sample.keys = e.keys
      · have hchg : inputs_changed sample e = false := by
          simp [inputs_changed, hk]
        have hpoll : poll now sample s = (s, false) := by
          simp [poll, he, hchg]
        have ih := pollRun_count rest s e he
        simp [pollRun, hpoll, ih, diffCount, hk]
      · have hchg : inputs_changed sample e = true := by
          simp [inputs_changed, hk]
        have hpoll : poll now sample s = (record_poll now sample s, true) := by
          simp [poll, he, hchg]
        have ih := pollRun_count rest (record_poll now sample s)
          { sample with dt_before := s.last_dt } (record_poll_head now sample s)
        simp [pollRun, hpoll, ih, diffCount, Ne.symm hk]

/-- C1: a freshly built sample is retained as a new edge iff the timeline is
empty or its key vector differs from the front edge's; hence over any nonempty
sequence of samples started from an empty timeline, the number of retained
edges is one plus the number of consecutive pairs whose vectors differ (so
repeating an identical sample adds no edges). -/
theorem C1_change_triggered (now : Nat) (sample : RecordedPoll) (s t : GlobalState)
    (samples : List (Nat × RecordedPoll)) (ht : t.poll_queue = []) (hne : samples ≠ []) :
    ((poll now sample s).2 = true ↔
      (s.poll_queue = [] ∨ ∃ e ∈ s.poll_queue.head?, sample.keys ≠ e.keys)) ∧
    (pollRun t samples).2 = 1 + diffCount (samples.map (fun x => x.2.keys)) := by
  constructor
  · rcases hq : s.poll_queue with _ | ⟨e, q⟩
    · simp [poll, hq]
    · by_cases hk : sample.keys = e.keys
      · simp [poll, hq, inputs_changed, hk]
      · simp [poll, hq, inputs_changed, hk]
  · rcases samples with _ | ⟨⟨n0, x0⟩, rest⟩
    · exact absurd rfl hne
    · have hh : t.poll_queue.head? = none := by rw [ht]; rfl
      have hpoll : poll n0 x0 t = (record_poll n0 x0 t, true) := by simp [poll, hh]
      have ih := pollRun_count rest (record_poll n0 x0 t)
        { x0 with dt_before := t.last_dt } (record_poll_head n0 x0 t)
      simp [pollRun, hpoll, ih, diffCount]

/-- Witness for C1 at a concrete state, sample and sample sequence. -/
theorem C1_change_triggered_witness :
    (init_state [] 0).poll_queue = [] ∧ ([((1 : Nat), poll_a), (2, poll_b)] ≠ []) ∧
    ((poll 3 poll_c s_one).2 = true ↔
      (s_one.poll_queue = [] ∨ ∃ e ∈ s_one.poll_queue.head?, poll_c.keys ≠ e.keys)) ∧
    (pollRun (init_state [] 0) [(1, poll_a), (2, poll_b)]).2 =
      1 + diffCount ([((1 : Nat), poll_a), (2, poll_b)].map (fun x => x.2.keys)) := by
  refine ⟨rfl, by decide, ?_, ?_⟩
  · exact (C1_change_triggered 3 poll_c s_one (init_state [] 0)
      [(1, poll_a), (2, poll_b)] rfl (by decide)).1
  · exact (C1_change_triggered 3 poll_c s_one (init_state [] 0)
      [(1, poll_a), (2, poll_b)] rfl (by decide)).2

/-- C5: on the very first retention (empty timeline) last_fps is set to 0; on
any later retention last_fps is set to the nearest-integer round of the
attempt count over the elapsed seconds between the new edge's timestamp and
the previous front edge's; the attempt counter is reset to 0 in both cases. -/
theorem C5_fps_metric (now : Nat) (p : RecordedPoll) (s t : GlobalState) (e : RecordedPoll)
    (ht : t.poll_queue = []) (he : s.poll_queue.head? = some e) (hlt : e.timestamp < now) :
    ((record_poll now p t).last_fps = 0 ∧
      (record_poll now p t).attempts_since_last_poll = 0) ∧
    ((record_poll now p s).last_fps =
        round_half_away ((s.attempts_since_last_poll * 1000000000 : ℚ) /
          ((now - e.timestamp : Nat) : ℚ)) ∧
      (record_poll now p s).attempts_since_last_poll = 0) := by
  refine ⟨⟨?_, rfl⟩, ?_, rfl⟩
  · simp [record_poll, ht]
  · simp only [record_poll, he]
    congr 1
    rw [div_div_eq_mul_div]

/-- Witness for C5 at a concrete state and tick two seconds after poll_b. -/
theorem C5_fps_metric_witness :
    (init_state [] 0).poll_queue = [] ∧ s_one.poll_queue.head? = some poll_b ∧
    poll_b.timestamp < 2060000000 ∧
    (((record_poll 2060000000 poll_c (init_state [] 0)).last_fps = 0 ∧
        (record_poll 2060000000 poll_c (init_state [] 0)).attempts_since_last_poll = 0) ∧
      ((record_poll 2060000000 poll_c s_one).last_fps =
          round_half_away ((s_one.attempts_since_last_poll * 1000000000 : ℚ) /
            ((2060000000 - poll_b.timestamp : Nat) : ℚ)) ∧
        (record_poll 2060000000 poll_c s_one).attempts_since_last_poll = 0)) :=
  ⟨rfl, rfl, by decide,
    C5_fps_metric 2060000000 poll_c s_one (init_state [] 0) poll_b rfl rfl (by decide)⟩

theorem evict_chain' {R : RecordedPoll → RecordedPoll → Prop} {q : List RecordedPoll}
    (h : List.Chain' R q) : List.Chain' R (evict_if_full q) := by
  unfold evict_if_full
  split
  · exact h.init
  · exact h

theorem backfill_chain' {R : RecordedPoll → RecordedPoll → Prop}
    (hR : ∀ b a d, R b a → R { b with dt_after := d } a) (d : Nat) :
    ∀ q : List RecordedPoll, List.Chain' R q → List.Chain' R (backfill d q) := by
  intro q hq
  rcases q with _ | ⟨p, _ | ⟨a, t⟩⟩
  · exact hq
  · simp [backfill]
  · rw [List.chain'_cons] at hq
    exact List.chain'_cons.mpr ⟨hR p a d hq.1, hq.2⟩

theorem evict_if_full_cons (e : RecordedPoll) (rest : List RecordedPoll) :
    evict_if_full (e :: rest) = e :: rest ∨
      evict_if_full (e :: rest) = e :: rest.dropLast := by
  unfold evict_if_full
  split
  · right
    rename_i hfull
    rcases rest with _ | ⟨c, t⟩
    · norm_num [MAX_QUEUE_SIZE] at hfull
    · rfl
  · left
    rfl

theorem record_poll_cons (now : Nat) (p : RecordedPoll) (s : GlobalState)
    (e0 : RecordedPoll) (rest : List RecordedPoll) (hqc : s.poll_queue = e0 :: rest) :
    ∃ rest', (record_poll now p s).poll_queue =
      { p with dt_before := s.last_dt } :: { e0 with dt_after := s.last_dt } :: rest' := by
  have hrw : (record_poll now p s).poll_queue =
      { p with dt_before := s.last_dt } :: backfill s.last_dt (evict_if_full s.poll_queue) :=
    rfl
  rcases evict_if_full_cons e0 rest with h1 | h1
  · exact ⟨rest, by rw [hrw, hqc, h1]; rfl⟩
  · exact ⟨rest.dropLast, by rw [hrw, hqc, h1]; rfl⟩

theorem shared_record (now : Nat) (p : RecordedPoll) (s : GlobalState)
    (h : List.Chain' shared_boundary s.poll_queue) :
    List.Chain' shared_boundary (record_poll now p s).poll_queue := by
  have h1 : List.Chain' shared_boundary (evict_if_full s.poll_queue) := evict_chain' h
  show List.Chain' shared_boundary
    ({ p with dt_before := s.last_dt } :: backfill s.last_dt (evict_if_full s.poll_queue))
  rcases hc : evict_if_full s.poll_queue with _ | ⟨e, rest⟩
  · simp [backfill]
  · rw [hc] at h1
    rw [show backfill s.last_dt (e :: rest) =
      { e with dt_after := s.last_dt } :: rest from rfl]
    refine List.chain'_cons.mpr ⟨rfl, ?_⟩
    exact backfill_chain' (fun b a d hba => hba) s.last_dt (e :: rest) h1

theorem poll_fst_queue (now : Nat) (sample : RecordedPoll) (s : GlobalState) :
    ((poll now sample s).1).poll_queue = s.poll_queue ∨
      (poll now sample s).1 = record_poll now sample s := by
  rcases hq : s.poll_queue.head? with _ | e
  · right
    simp [poll, hq]
  · by_cases hchg : inputs_changed sample e
    · right
      simp [poll, hq, hchg]
    · left
      simp [poll, hq, hchg]

theorem poll_body_queue (now : Nat) (pressed : List Nat) (s : GlobalState) :
    (poll_body now pressed s).poll_queue =
      ((poll now (get_pressed_keys s.actions now pressed)
        { s with
          attempts_since_last_poll := s.attempts_since_last_poll + 1
          last_dt := now - s.last_poll_attempt }).1).poll_queue := rfl

theorem poll_body_lpa (now : Nat) (pressed : List Nat) (s : GlobalState) :
    (poll_body now pressed s).last_poll_attempt = now := rfl

theorem shared_maybe_poll (now : Nat) (pressed : List Nat) (s : GlobalState)
    (h : List.Chain' shared_boundary s.poll_queue) :
    List.Chain' shared_boundary (maybe_poll now pressed s).poll_queue := by
  unfold maybe_poll
  by_cases hg : enough_time_passed s now = true
  · rw [if_pos hg, poll_body_queue]
    rcases poll_fst_queue now (get_pressed_keys s.actions now pressed)
        { s with
          attempts_since_last_poll := s.attempts_since_last_poll + 1
          last_dt := now - s.last_poll_attempt } with h1 | h1
    · rw [h1]
      exact h
    · rw [h1]
      exact shared_record now _ _ h
  · rw [if_neg hg]
    exact h

theorem shared_run :
    ∀ (ticks : List (Nat × List Nat)) (s : GlobalState),
      List.Chain' shared_boundary s.poll_queue →
      List.Chain' shared_boundary (run s ticks).poll_queue
  | [], _, h => h
  | (now, pressed) :: rest, s, h =>
      shared_run rest (maybe_poll now pressed s) (shared_maybe_poll now pressed s h)

/-- C2: when a new edge is pushed onto a nonempty timeline, its dt_before and
the back-filled dt_after of the previous front edge are both set to the same
value last_dt (the sampling interval active when the new edge was detected);
consequently on every run from the initial state each pair of temporally
adjacent edges A (older) and B (newer) satisfies A.dt_after = B.dt_before. -/
theorem C2_shared_boundary (now : Nat) (p : RecordedPoll) (s : GlobalState)
    (e : RecordedPoll) (he : s.poll_queue.head? = some e)
    (actions : List Nat) (t0 : Nat) (ticks : List (Nat × List Nat)) :
    (∃ b a rest, (record_poll now p s).poll_queue = b :: a :: rest ∧
      b.dt_before = s.last_dt ∧ a.dt_after = s.last_dt) ∧
    List.Chain' shared_boundary (run (init_state actions t0) ticks).poll_queue := by
  constructor
  · rcases hqc : s.poll_queue with _ | ⟨e0, rest⟩
    · rw [hqc] at he
      exact absurd he (by simp)
    · obtain ⟨rest', h⟩ := record_poll_cons now p s e0 rest hqc
      exact ⟨_, _, rest', h, rfl, rfl⟩
  · exact shared_run ticks (init_state actions t0) trivial

/-- Witness for C2 at a concrete push and a concrete two-tick run. -/
theorem C2_shared_boundary_witness :
    s_one.poll_queue.head? = some poll_b ∧
    ((∃ b a rest, (record_poll 3 poll_c s_one).poll_queue = b :: a :: rest ∧
        b.dt_before = s_one.last_dt ∧ a.dt_after = s_one.last_dt) ∧
      List.Chain' shared_boundary (run (init_state [5] 0) [(2, [5])]).poll_queue) :=
  ⟨rfl, C2_shared_boundary 3 poll_c s_one poll_b rfl [5] 0 [(2, [5])]⟩

theorem backfill_length (d : Nat) :
    ∀ q : List RecordedPoll, (backfill d q).length = q.length
  | [] => rfl
  | _ :: _ => rfl

theorem backfill_map_timestamp (d : Nat) :
    ∀ q : List RecordedPoll,
      (backfill d q).map RecordedPoll.timestamp = q.map RecordedPoll.timestamp
  | [] => rfl
  | _ :: _ => rfl

theorem record_poll_length_le (now : Nat) (p : RecordedPoll) (s : GlobalState)
    (h : s.poll_queue.length ≤ MAX_QUEUE_SIZE) :
    (record_poll now p s).poll_queue.length ≤ MAX_QUEUE_SIZE := by
  have hM : MAX_QUEUE_SIZE = 20 := rfl
  have hrw : (record_poll now p s).poll_queue.length
      = (evict_if_full s.poll_queue).length + 1 := by
    rw [show (record_poll now p s).poll_queue = { p with dt_before := s.last_dt } ::
      backfill s.last_dt (evict_if_full s.poll_queue) from rfl]
    rw [List.length_cons, backfill_length]
  rw [hrw]
  unfold evict_if_full
  split
  · rename_i hfull
    rw [List.length_dropLast]
    omega
  · rename_i hnot
    omega

theorem poll_length_le (now : Nat) (sample : RecordedPoll) (s : GlobalState)
    (h : s.poll_queue.length ≤ MAX_QUEUE_SIZE) :
    ((poll now sample s).1).poll_queue.length ≤ MAX_QUEUE_SIZE := by
  rcases poll_fst_queue now sample s with h1 | h1
  · rw [h1]
    exact h
  · rw [h1]
    exact record_poll_length_le now sample s h

theorem maybe_poll_length_le (now : Nat) (pressed : List Nat) (s : GlobalState)
    (h : s.poll_queue.length ≤ MAX_QUEUE_SIZE) :
    (maybe_poll now pressed s).poll_queue.length ≤ MAX_QUEUE_SIZE := by
  unfold maybe_poll
  by_cases hg : enough_time_passed s now = true
  · rw [if_pos hg, poll_body_queue]
    exact poll_length_le now _ _ h
  · rw [if_neg hg]
    exact h

theorem run_length_le :
    ∀ (ticks : List (Nat × List Nat)) (s : GlobalState),
      s.poll_queue.length ≤ MAX_QUEUE_SIZE →
      (run s ticks).poll_queue.length ≤ MAX_QUEUE_SIZE
  | [], _, h => h
  | (now, pressed) :: rest, s, h =>
      run_length_le rest (maybe_poll now pressed s) (maybe_poll_length_le now pressed s h)

theorem getLast?_min :
    ∀ (q : List RecordedPoll),
      List.Chain' (fun b a => a.timestamp < b.timestamp) q →
      ∀ tl, q.getLast? = some tl → ∀ e ∈ q, tl.timestamp ≤ e.timestamp
  | [], _, tl, htl, e, he => by simp at htl
  | [x], _, tl, htl, e, he => by
      simp at htl he
      rw [← htl, he]
  | x :: y :: t, hch, tl, htl, e, he => by
      rw [List.chain'_cons] at hch
      rw [List.getLast?_cons_cons] at htl
      have hmin := getLast?_min (y :: t) hch.2 tl htl
      rcases List.mem_cons.mp he with h | h
      · have h1 : tl.timestamp ≤ y.timestamp := hmin y (List.mem_cons_self y t)
        have h2 : y.timestamp < x.timestamp := hch.1
        rw [h]
        omega
      · exact hmin e h

/-- C4: on any run from the initial state the timeline length never exceeds
MAX_QUEUE_SIZE; and when a push happens with the timeline at capacity, the
tail edge, which under the strictly decreasing timestamp ordering carries the
smallest timestamp, is removed first: afterwards the timestamps are the new
edge's followed by all previous ones except the last. -/
theorem C4_capacity (actions : List Nat) (t0 : Nat) (ticks : List (Nat × List Nat))
    (now : Nat) (p : RecordedPoll) (s : GlobalState)
    (hfull : MAX_QUEUE_SIZE ≤ s.poll_queue.length)
    (hsorted : List.Chain' (fun b a => a.timestamp < b.timestamp) s.poll_queue) :
    (run (init_state actions t0) ticks).poll_queue.length ≤ MAX_QUEUE_SIZE ∧
    ∃ tl, s.poll_queue.getLast? = some tl ∧
      (∀ e ∈ s.poll_queue, tl.timestamp ≤ e.timestamp) ∧
      (record_poll now p s).poll_queue.map RecordedPoll.timestamp =
        p.timestamp :: (s.poll_queue.map RecordedPoll.timestamp).dropLast := by
  have hM : MAX_QUEUE_SIZE = 20 := rfl
  refine ⟨run_length_le ticks _ (by simp [init_state]), ?_⟩
  have hne : s.poll_queue ≠ [] := by
    intro h0
    rw [h0] at hfull
    simp at hfull
    omega
  obtain ⟨tl, htl⟩ := Option.isSome_iff_exists.mp (List.getLast?_isSome.mpr hne)
  refine ⟨tl, htl, getLast?_min s.poll_queue hsorted tl htl, ?_⟩
  rw [show (record_poll now p s).poll_queue = { p with dt_before := s.last_dt } ::
    backfill s.last_dt (evict_if_full s.poll_queue) from rfl]
  rw [List.map_cons, backfill_map_timestamp]
  unfold evict_if_full
  rw [if_pos hfull, List.map_dropLast]

/-- Witness for C4 at a timeline of exactly twenty edges. -/
theorem C4_capacity_witness :
    MAX_QUEUE_SIZE ≤ s_full.poll_queue.length ∧
    List.Chain' (fun b a => a.timestamp < b.timestamp) s_full.poll_queue ∧
    ((run (init_state [7] 0) [(6, [7])]).poll_queue.length ≤ MAX_QUEUE_SIZE ∧
      ∃ tl, s_full.poll_queue.getLast? = some tl ∧
        (∀ e ∈ s_full.poll_queue, tl.timestamp ≤ e.timestamp) ∧
        (record_poll 210 poll_c s_full).poll_queue.map RecordedPoll.timestamp =
          poll_c.timestamp :: (s_full.poll_queue.map RecordedPoll.timestamp).dropLast) :=
  ⟨by decide, by simp [s_full, fullQueue, init_state],
    C4_capacity [7] 0 [(6, [7])] 210 poll_c s_full (by decide)
      (by simp [s_full, fullQueue, init_state])⟩

theorem chain_le_head {a b : Nat} (h : a ≤ b) {l : List Nat}
    (hch : List.Chain (fun x y => x ≤ y) b l) :
    List.Chain (fun x y => x ≤ y) a l := by
  cases hch with
  | nil => exact List.Chain.nil
  | cons hbc hcl => exact List.Chain.cons (le_trans h hbc) hcl

theorem sampler_record (now : Nat) (p : RecordedPoll) (s : GlobalState)
    (hq : List.Chain' gap_bound s.poll_queue)
    (hhead : ∀ e ∈ s.poll_queue.head?, e.timestamp ≤ s.last_poll_attempt)
    (hle : s.last_poll_attempt ≤ now)
    (hp : p.timestamp = now)
    (hd : s.last_dt = now - s.last_poll_attempt) :
    List.Chain' gap_bound (record_poll now p s).poll_queue := by
  show List.Chain' gap_bound
    ({ p with dt_before := s.last_dt } :: backfill s.last_dt (evict_if_full s.poll_queue))
  rcases hqc : s.poll_queue with _ | ⟨e0, rest⟩
  · simp [evict_if_full, backfill, MAX_QUEUE_SIZE]
  · have he0 : e0.timestamp ≤ s.last_poll_attempt := hhead e0 (by rw [hqc]; rfl)
    rw [hqc] at hq
    have h1 : List.Chain' gap_bound (evict_if_full (e0 :: rest)) := evict_chain' hq
    have key : ∀ R : List RecordedPoll,
        List.Chain' gap_bound (e0 :: R) →
        List.Chain' gap_bound ({ p with dt_before := s.last_dt } ::
          backfill s.last_dt (e0 :: R)) := by
      intro R hR
      rw [show backfill s.last_dt (e0 :: R) =
        { e0 with dt_after := s.last_dt } :: R from rfl]
      refine List.chain'_cons.mpr ⟨⟨?_, ?_⟩, ?_⟩
      · show e0.timestamp ≤ p.timestamp
        omega
      · show s.last_dt ≤ p.timestamp - e0.timestamp
        omega
      · exact backfill_chain' (fun b a d hba => hba) s.last_dt (e0 :: R) hR
    rcases evict_if_full_cons e0 rest with h2 | h2
    · rw [h2]
      exact key rest (h2 ▸ h1)
    · rw [h2]
      exact key rest.dropLast (h2 ▸ h1)

theorem sampler_inv_poll_body (now : Nat) (pressed : List Nat) (s : GlobalState)
    (hq : List.Chain' gap_bound s.poll_queue)
    (hhead : ∀ e ∈ s.poll_queue.head?, e.timestamp ≤ s.last_poll_attempt)
    (hle : s.last_poll_attempt ≤ now) :
    List.Chain' gap_bound (poll_body now pressed s).poll_queue ∧
      ∀ e ∈ (poll_body now pressed s).poll_queue.head?,
        e.timestamp ≤ (poll_body now pressed s).last_poll_attempt := by
  rw [poll_body_lpa, poll_body_queue]
  rcases poll_fst_queue now (get_pressed_keys s.actions now pressed)
      { s with
        attempts_since_last_poll := s.attempts_since_last_poll + 1
        last_dt := now - s.last_poll_attempt } with h1 | h1
  · rw [h1]
    constructor
    · exact hq
    · intro e he
      exact le_trans (hhead e he) hle
  · rw [h1]
    constructor
    · exact sampler_record now _ _ hq hhead hle rfl rfl
    · intro e he
      rw [record_poll_head] at he
      simp at he
      subst he
      exact le_refl now

theorem sampler_inv_maybe_poll (now : Nat) (pressed : List Nat) (s : GlobalState)
    (hq : List.Chain' gap_bound s.poll_queue)
    (hhead : ∀ e ∈ s.poll_queue.head?, e.timestamp ≤ s.last_poll_attempt)
    (hle : s.last_poll_attempt ≤ now) :
    List.Chain' gap_bound (maybe_poll now pressed s).poll_queue ∧
      (∀ e ∈ (maybe_poll now pressed s).poll_queue.head?,
        e.timestamp ≤ (maybe_poll now pressed s).last_poll_attempt) ∧
      (maybe_poll now pressed s).last_poll_attempt ≤ now := by
  unfold maybe_poll
  by_cases hg : enough_time_passed s now = true
  · rw [if_pos hg]
    have h := sampler_inv_poll_body now pressed s hq hhead hle
    exact ⟨h.1, h.2, le_of_eq (poll_body_lpa now pressed s)⟩
  · rw [if_neg hg]
    exact ⟨hq, hhead, hle⟩

theorem sampler_inv_run :
    ∀ (ticks : List (Nat × List Nat)) (s : GlobalState),
      List.Chain' gap_bound s.poll_queue →
      (∀ e ∈ s.poll_queue.head?, e.timestamp ≤ s.last_poll_attempt) →
      List.Chain (fun x y => x ≤ y) s.last_poll_attempt (ticks.map Prod.fst) →
      List.Chain' gap_bound (run s ticks).poll_queue
  | [], _, hq, _, _ => hq
  | (now, pressed) :: rest, s, hq, hhead, hch => by
      rw [List.map_cons, List.chain_cons] at hch
      have h := sampler_inv_maybe_poll now pressed s hq hhead hch.1
      exact sampler_inv_run rest (maybe_poll now pressed s) h.1 h.2.1
        (chain_le_head h.2.2 hch.2)

/-- C9: started from the initial state, if the tick instants are nondecreasing
then every pair of temporally adjacent edges poll (older) and next_poll
(newer) in the timeline satisfies
poll.dt_after at most next_poll.timestamp minus poll.timestamp, so the
unsigned subtraction computing min_nanos_held in the reconstructor never
underflows. -/
theorem C9_no_underflow (actions : List Nat) (t0 : Nat) (ticks : List (Nat × List Nat))
    (hmono : List.Chain (fun x y => x ≤ y) t0 (ticks.map Prod.fst)) :
    List.Chain' gap_bound (run (init_state actions t0) ticks).poll_queue :=
  sampler_inv_run ticks (init_state actions t0) trivial
    (by intro e he; simp [init_state] at he) hmono

/-- Witness for C9 on a concrete three-tick run with nondecreasing instants. -/
theorem C9_no_underflow_witness :
    List.Chain (fun x y => x ≤ y) 0
      ([((5 : Nat), [(3 : Nat)]), (9, []), (9, [3])].map Prod.fst) ∧
    List.Chain' gap_bound
      (run (init_state [3] 0) [(5, [3]), (9, []), (9, [3])]).poll_queue :=
  ⟨by simp, C9_no_underflow [3] 0 [(5, [3]), (9, []), (9, [3])] (by simp)⟩
